import Mathlib

set_option maxRecDepth 4000

/-
Verification of the TabFS synthetic-filesystem route engine
(src/extension/background.js): the content-route adapter
`makeRouteWithContents` (getattr/open/read/write/release/truncate), the
open-handle `Cache`, route resolution (`sortedRoutes` / `tryMatchRoute`),
and the request dispatcher `onMessage` (base64 ingress/egress, error
mapping, per-request timeout).

Conventions of the shallow embedding:
  * JS `Uint8Array` byte buffers are `List Nat` with entries < 256.
  * JS strings are Lean `String`s (a JS "binary string" produced by
    `atob` is a string whose characters all have code points < 256).
  * A thrown JS value is `JSError`: `unixError e` for `new UnixError(e)`
    and `other` for any other thrown value (`TypeError` etc.).
  * `async` handlers become pure functions returning `Except JSError _`
    together with the updated cache state; in-place `Uint8Array`
    mutation of a cached buffer becomes an explicit cache update.
-/

namespace TabFS

-- Errno constants and file-type bits from the `unix` object in the source.
-- `EIO` is rendered as `EIO_code` (the Lean name `EIO` is avoided); all
-- values are the source's.
namespace unix

def EPERM : Nat := 1
def ENOENT : Nat := 2
def ESRCH : Nat := 3
def EINTR : Nat := 4
def EIO_code : Nat := 5
def ENXIO : Nat := 6
def ENOTSUP : Nat := 45
def ETIMEDOUT : Nat := 110
def S_IFREG : Nat := 0o100000

end unix

/-- A thrown JS value as the dispatcher's catch block distinguishes them:
`unixError e` models `new UnixError(e)` (field `error = e`), and `other`
models every other thrown value (e.g. the `TypeError` raised by calling
an `undefined` accessor or by indexing a missing cache entry). -/
inductive JSError where
  | unixError (error : Nat)
  | other
deriving DecidableEq, Repr

/-- UTF-8 encoding of one character, as `TextEncoder` produces it
(Lean `Char` excludes surrogates, so the 1-4 byte cases cover all). -/
def utf8EncodeChar (c : Char) : List Nat :=
  let n := c.toNat
  if n ≤ 0x7F then [n]
  else if n ≤ 0x7FF then [0xC0 + n / 64, 0x80 + n % 64]
  else if n ≤ 0xFFFF then [0xE0 + n / 4096, 0x80 + n / 64 % 64, 0x80 + n % 64]
  else [0xF0 + n / 262144, 0x80 + n / 4096 % 64, 0x80 + n / 64 % 64, 0x80 + n % 64]

/-- `stringToUtf8Array` from the source: `new TextEncoder("utf-8").encode(str)`. -/
def stringToUtf8Array (s : String) : List Nat :=
  s.data.flatMap utf8EncodeChar

/-- The U+FFFD replacement character emitted by `TextDecoder` for
malformed input. -/
def replChar : Char := Char.ofNat 0xFFFD

/-- Is `b` a UTF-8 continuation byte within `[lo, hi]`? -/
def contOk (lo hi b : Nat) : Bool := lo ≤ b && b ≤ hi

/-- Classification of a lead byte per the WHATWG UTF-8 decoder: either
a character to emit immediately (an ASCII byte, or U+FFFD for an
invalid lead), or the state for a multi-byte sequence — continuation
bytes needed, accumulated code point, and the allowed range of the next
byte (tightened for `E0`/`ED`/`F0`/`F4` to reject overlong encodings
and surrogates). -/
def leadState (b : Nat) : Option Char × Nat × Nat × Nat × Nat :=
  if b ≤ 0x7F then (some (Char.ofNat b), 0, 0, 0x80, 0xBF)
  else if 0xC2 ≤ b ∧ b ≤ 0xDF then (none, 1, b - 0xC0, 0x80, 0xBF)
  else if 0xE0 ≤ b ∧ b ≤ 0xEF then
    (none, 2, b - 0xE0, if b = 0xE0 then 0xA0 else 0x80, if b = 0xED then 0x9F else 0xBF)
  else if 0xF0 ≤ b ∧ b ≤ 0xF4 then
    (none, 3, b - 0xF0, if b = 0xF0 then 0x90 else 0x80, if b = 0xF4 then 0x8F else 0xBF)
  else (some replChar, 0, 0, 0x80, 0xBF)

/-- The WHATWG UTF-8 decoding loop (non-fatal mode), as
`TextDecoder("utf-8")` runs it: state is (continuation bytes needed,
code point so far, lower/upper bound for the next byte). A continuation
byte out of range emits U+FFFD and re-processes the byte as a lead; a
truncated sequence at end of input emits one U+FFFD. -/
def utf8Go : Nat → Nat → Nat → Nat → List Nat → List Char
  | needed, _, _, _, [] => if needed = 0 then [] else [replChar]
  | 0, _, _, _, b :: rest =>
    (match leadState b with
     | (some ch, n, cp, lo, hi) => ch :: utf8Go n cp lo hi rest
     | (none, n, cp, lo, hi) => utf8Go n cp lo hi rest)
  | needed + 1, cp, lo, hi, b :: rest =>
    if lo ≤ b ∧ b ≤ hi then
      let cp' := cp * 64 + (b - 0x80)
      if needed = 0 then Char.ofNat cp' :: utf8Go 0 0 0x80 0xBF rest
      else utf8Go needed cp' 0x80 0xBF rest
    else
      match leadState b with
      | (some ch, n, cp2, lo2, hi2) => replChar :: ch :: utf8Go n cp2 lo2 hi2 rest
      | (none, n, cp2, lo2, hi2) => replChar :: utf8Go n cp2 lo2 hi2 rest

/-- Full UTF-8 decoding: run the loop from the initial state. -/
def utf8Decode (l : List Nat) : List Char :=
  utf8Go 0 0 0x80 0xBF l

/-- `utf8ArrayToString` from the source: `new TextDecoder("utf-8").decode(utf8)`. -/
def utf8ArrayToString (l : List Nat) : String :=
  ⟨utf8Decode l⟩

/-- `String.fromCharCode(...codes)`: the string whose characters have the
given code points. -/
def fromCharCodes (l : List Nat) : String :=
  ⟨l.map Char.ofNat⟩

/-- Code points of a string's characters (how `atob`/`btoa` read a JS
binary string: one byte per character). -/
def charCodes (s : String) : List Nat :=
  s.data.map Char.toNat

/-- Code point of the base64 alphabet character for sextet `s`
(`A-Z a-z 0-9 + /`). -/
def sextetChar (s : Nat) : Nat :=
  if s < 26 then 65 + s
  else if s < 52 then 71 + s
  else if s < 62 then s - 4
  else if s = 62 then 43
  else 47

/-- Sextet value of a base64 alphabet code point (inverse of `sextetChar`). -/
def charSextet (c : Nat) : Nat :=
  if 65 ≤ c ∧ c ≤ 90 then c - 65
  else if 97 ≤ c ∧ c ≤ 122 then c - 71
  else if 48 ≤ c ∧ c ≤ 57 then c + 4
  else if c = 43 then 62
  else if c = 47 then 63
  else 0

/-- `btoa` on a binary string, as code-point lists: standard base64 with
`=` (code 61) padding, three input bytes per four output characters. -/
def btoaCodes : List Nat → List Nat
  | [] => []
  | [a] => [sextetChar (a / 4), sextetChar (a % 4 * 16), 61, 61]
  | [a, b] => [sextetChar (a / 4), sextetChar (a % 4 * 16 + b / 16), sextetChar (b % 16 * 4), 61]
  | a :: b :: c :: rest =>
    sextetChar (a / 4) :: sextetChar (a % 4 * 16 + b / 16) ::
      sextetChar (b % 16 * 4 + c / 64) :: sextetChar (c % 64) :: btoaCodes rest

/-- `atob` on code-point lists: decodes four base64 characters to three
bytes, with `=` (code 61) padding ending the input. (The validation
`atob` performs on malformed input is not modelled; all uses here decode
strings produced by `btoaCodes`.) -/
def atobCodes : List Nat → List Nat
  | c0 :: c1 :: c2 :: c3 :: rest =>
    let s0 := charSextet c0
    let s1 := charSextet c1
    if c2 = 61 then [s0 * 4 + s1 / 16]
    else
      let s2 := charSextet c2
      if c3 = 61 then [s0 * 4 + s1 / 16, s1 % 16 * 16 + s2 / 4]
      else (s0 * 4 + s1 / 16) :: (s1 % 16 * 16 + s2 / 4) ::
        (s2 % 4 * 64 + charSextet c3) :: atobCodes rest
  | _ => []

/-- `btoa` at the string level. -/
def btoaStr (s : String) : String := fromCharCodes (btoaCodes (charCodes s))

/-- `atob` at the string level. -/
def atobStr (s : String) : String := fromCharCodes (atobCodes (charCodes s))

/-- One entry of the handle cache: `{path, object}` where `object` is the
cached byte buffer. -/
structure CacheEntry where
  path : String
  object : List Nat
deriving DecidableEq, Repr

/-- First entry with the given key in an association list (JS object
property lookup for `Cache.store[handle]`; `none` models `undefined`). -/
def lookupHandle : List (Nat × CacheEntry) → Nat → Option CacheEntry
  | [], _ => none
  | (k, e) :: rest, h => if k = h then some e else lookupHandle rest h

/-- The `Cache` from `makeRouteWithContents`: `store` maps handles to
`{path, object}` and `nextHandle` is the monotone handle counter. -/
structure Cache where
  store : List (Nat × CacheEntry)
  nextHandle : Nat
deriving DecidableEq, Repr

/-- `Cache.storeObject(path, object)`: allocates handle `++nextHandle`
and records `{path, object}` under it; returns the handle. -/
def Cache.storeObject (c : Cache) (path : String) (object : List Nat) : Nat × Cache :=
  let handle := c.nextHandle + 1
  (handle, { store := (handle, { path := path, object := object }) :: c.store,
             nextHandle := handle })

/-- `Cache.getObjectForHandle(handle)`: `this.store[handle].object`;
`none` stands for the `TypeError` raised when the entry is missing. -/
def Cache.getObjectForHandle (c : Cache) (h : Nat) : Option (List Nat) :=
  (lookupHandle c.store h).map CacheEntry.object

/-- `Cache.setObjectForHandle(handle, object)` (also models in-place
mutation of the cached `Uint8Array`, which every holder of the entry
observes). -/
def Cache.setObjectForHandle (c : Cache) (h : Nat) (object : List Nat) : Cache :=
  { c with store := c.store.map fun p =>
      if p.1 = h then (p.1, { p.2 with object := object }) else p }

/-- `Cache.removeObjectForHandle(handle)`: `delete this.store[handle]`
(a no-op when the entry is already gone). -/
def Cache.removeObjectForHandle (c : Cache) (h : Nat) : Cache :=
  { c with store := c.store.filter fun p => p.1 != h }

/-- `Cache.setObjectForPath(path, object)`: replaces the buffer of every
stored entry whose `path` field equals `path`. -/
def Cache.setObjectForPath (c : Cache) (path : String) (object : List Nat) : Cache :=
  { c with store := c.store.map fun p =>
      if p.2.path = path then (p.1, { p.2 with object := object }) else p }

/-- Result of `getData`: a JS string, a `Uint8Array`, or `undefined`
(the accessor's way of signalling "no such file"). -/
inductive ContentData where
  | str (s : String)
  | bytes (b : List Nat)
  | undef
deriving DecidableEq, Repr

/-- A request as the handlers see it: `{id, op, path, fh, offset, size,
buf}` plus the variable bindings spread in by the dispatcher
(`{...req, ...vars}`). Fields an operation does not use are simply
ignored by it. -/
structure Req where
  id : Nat
  op : String
  path : String
  fh : Nat := 0
  offset : Nat := 0
  size : Nat := 0
  buf : String := ""
  vars : List (String × String) := []
deriving DecidableEq, Repr

/-- The read accessor `getData`; its result may vary between calls (it
consults live browser state) and it may throw, so each call site takes
the function as an argument. -/
def GetData : Type := Req → Except JSError ContentData

/-- The optional write accessor `setData`; `none` models a route built
without one (calling it then raises a `TypeError`, i.e. `JSError.other`). -/
def SetData : Type := Option (Req → String → Except JSError Unit)

/-- The metadata object `getattr` returns. -/
structure Stat where
  st_mode : Nat
  st_nlink : Nat
  st_size : Nat
deriving DecidableEq, Repr

/-- `toUtf8Array(stringOrArray)` from the source: encode a string,
pass a `Uint8Array` through. (Never applied to `undefined`: each use
either checks for it first or, in `truncate`, crashing on it is modelled
at the call site.) -/
def toUtf8Array : ContentData → List Nat
  | .str s => stringToUtf8Array s
  | .bytes b => b
  | .undef => []

/-- `makeRouteWithContents`'s `getattr`: calls `getData`; `undefined`
data raises `UnixError(ENOENT)`; otherwise regular-file mode `0444`
plus `0222` exactly when a `setData` was supplied, link count 1, and
size the byte length of the UTF-8 encoding of the data. -/
def getattrOp (getData : GetData) (setData : SetData) (req : Req) : Except JSError Stat :=
  match getData req with
  | .error e => .error e
  | .ok .undef => .error (.unixError unix.ENOENT)
  | .ok d =>
    .ok { st_mode := unix.S_IFREG ||| 0o444 ||| (if setData.isSome then 0o222 else 0),
          st_nlink := 1,
          st_size := (toUtf8Array d).length }

/-- `makeRouteWithContents`'s `open`: calls `getData` once; `undefined`
raises `UnixError(ENOENT)`; otherwise stores the UTF-8 bytes under a
fresh handle and returns `{fh}`. -/
def openOp (getData : GetData) (req : Req) (c : Cache) : Except JSError Nat × Cache :=
  match getData req with
  | .error e => (.error e, c)
  | .ok .undef => (.error (.unixError unix.ENOENT), c)
  | .ok d =>
    let (h, c') := c.storeObject req.path (toUtf8Array d)
    (.ok h, c')

/-- `makeRouteWithContents`'s `read`: slices the cached buffer —
`Cache.getObjectForHandle(fh).slice(offset, offset + size)` — and
returns it as a binary string; a missing handle raises a `TypeError`. -/
def readOp (req : Req) (c : Cache) : Except JSError String :=
  match c.getObjectForHandle req.fh with
  | none => .error .other
  | some arr => .ok (fromCharCodes ((arr.drop req.offset).take req.size))

/-- The buffer produced by `write`'s mutation: when `offset + |buf|`
exceeds the current length, a fresh zero-filled array of that size
receives the old bytes below `offset` (`newArr.set(arr.slice(0,
Math.min(offset, arr.length)))`) and then `buf` at `offset`; otherwise
`buf` overwrites in place (`arr.set(bufarr, offset)`). -/
def writeBytes (arr bufarr : List Nat) (offset : Nat) : List Nat :=
  if arr.length < offset + bufarr.length then
    arr.take offset ++ List.replicate (offset - arr.length) 0 ++ bufarr
  else
    arr.take offset ++ bufarr ++ arr.drop (offset + bufarr.length)

/-- `makeRouteWithContents`'s `write`: looks up the handle's buffer
(missing handle: `TypeError`), UTF-8-encodes `req.buf`, mutates the
cached buffer via `writeBytes` (the cache update happens before the
accessor call, so it persists even when that call fails), hands the
whole decoded buffer to `setData` (absent `setData`: `TypeError`), and
returns `{size: bufarr.length}`. -/
def writeOp (setData : SetData) (req : Req) (c : Cache) : Except JSError Nat × Cache :=
  match c.getObjectForHandle req.fh with
  | none => (.error .other, c)
  | some arr =>
    let bufarr := stringToUtf8Array req.buf
    let newBuf := writeBytes arr bufarr req.offset
    let c' := c.setObjectForHandle req.fh newBuf
    match setData with
    | none => (.error .other, c')
    | some f =>
      match f req (utf8ArrayToString newBuf) with
      | .ok _ => (.ok bufarr.length, c')
      | .error e => (.error e, c')

/-- `makeRouteWithContents`'s `release`: drops the cache entry and
returns `{}` — unconditionally, even for an unknown handle. -/
def releaseOp (req : Req) (c : Cache) : Except JSError Unit × Cache :=
  (.ok (), c.removeObjectForHandle req.fh)

/-- The resized buffer `truncate` builds when `req.size !== arr.length`:
`new Uint8Array(req.size)` receiving `arr.slice(0, Math.min(req.size,
arr.length))` — old bytes kept up to the new size, zero padding beyond
the old length. -/
def truncateBytes (arr : List Nat) (size : Nat) : List Nat :=
  if size ≠ arr.length then arr.take size ++ List.replicate (size - arr.length) 0
  else arr

/-- Shared tail of `truncate` once the re-fetched contents have been
UTF-8-encoded into `arr`: resize, propagate to every cached handle for
`req.path` via `Cache.setObjectForPath`, then hand the full new
contents to `setData`. -/
def truncateWith (setData : SetData) (req : Req) (c : Cache) (arr : List Nat) :
    Except JSError Unit × Cache :=
  let arr' := truncateBytes arr req.size
  let c' := c.setObjectForPath req.path arr'
  match setData with
  | none => (.error .other, c')
  | some f =>
    match f req (utf8ArrayToString arr') with
    | .ok _ => (.ok (), c')
    | .error e => (.error e, c')

/-- `makeRouteWithContents`'s `truncate`: re-fetches via `getData` (not
from any handle's cache); an `undefined` result makes `arr.length`
raise a `TypeError` before any state is touched. -/
def truncateOp (getData : GetData) (setData : SetData) (req : Req) (c : Cache) :
    Except JSError Unit × Cache :=
  match getData req with
  | .error e => (.error e, c)
  | .ok .undef => (.error .other, c)
  | .ok d => truncateWith setData req c (toUtf8Array d)

/-- A success payload as `onMessage` sees it: the object a handler
resolved with (`{st_mode,..}`, `{fh}`, `{buf}`, `{size}` or `{}`). -/
inductive RespData where
  | stat (st_mode st_nlink st_size : Nat)
  | opened (fh : Nat)
  | readBuf (buf : String)
  | wrote (size : Nat)
  | empty
deriving DecidableEq, Repr

/-- The operation table of a route produced by `makeRouteWithContents`:
dispatch on `req.op`; `none` models `route[req.op]` being `undefined`
(calling it raises a `TypeError`). -/
def contentOps (getData : GetData) (setData : SetData) (op : String) :
    Option (Req → Cache → Except JSError RespData × Cache) :=
  if op = "getattr" then
    some fun req c => ((getattrOp getData setData req).map fun st =>
      .stat st.st_mode st.st_nlink st.st_size, c)
  else if op = "open" then
    some fun req c => let (r, c') := openOp getData req c; (r.map .opened, c')
  else if op = "read" then
    some fun req c => ((readOp req c).map .readBuf, c)
  else if op = "write" then
    some fun req c => let (r, c') := writeOp setData req c; (r.map .wrote, c')
  else if op = "release" then
    some fun req c => let (r, c') := releaseOp req c; (r.map fun _ => .empty, c')
  else if op = "truncate" then
    some fun req c => let (r, c') := truncateOp getData setData req c; (r.map fun _ => .empty, c')
  else none

/-- A registered route: `__matchVarCount` (the variable count its
pattern was compiled with), `__match` (path → bindings), and its
operation handlers. -/
structure Route where
  matchVarCount : Nat
  matchFn : String → Option (List (String × String))
  ops : String → Option (Req → Cache → Except JSError RespData × Cache)

/-- Modelled from the spec: the pattern language of the Path Matcher
(§4.1). The code compiling route patterns into `__match` /
`__matchVarCount` is not part of src/ (only its consumers
`sortedRoutes` / `tryMatchRoute` are), so a pattern is modelled as the
spec describes it: a sequence of literal segments, variable segments
(capturing one concrete segment), and a trailing rest-variable
(capturing all remaining segments joined). -/
inductive Seg where
  | lit (s : String)
  | seg_var (name : String)
  | seg_rest (name : String)
deriving DecidableEq, Repr

/-- Split a string at `/` characters (accumulator holds the current
segment reversed). `String.splitOn "/"` is avoided only because it does
not reduce well; the result is the same. -/
def splitSlashAux : List Char → List Char → List String
  | acc, [] => [String.mk acc.reverse]
  | acc, ch :: rest =>
    if ch = '/' then String.mk acc.reverse :: splitSlashAux [] rest
    else splitSlashAux (ch :: acc) rest

/-- Segments of a path: `"/a/b"` becomes `["", "a", "b"]`. -/
def splitSlash (s : String) : List String :=
  splitSlashAux [] s.data

/-- Modelled from the spec: structural matching of a pattern against
the `/`-delimited segments of a concrete path (§4.1) — literals must be
equal, a variable captures its segment, a trailing rest-variable
captures the remaining segments joined by `/`; otherwise no match. -/
def matchSegs : List Seg → List String → Option (List (String × String))
  | [], [] => some []
  | .lit s :: ps, cseg :: cs => if s = cseg then matchSegs ps cs else none
  | .seg_var n :: ps, cseg :: cs => (matchSegs ps cs).map ((n, cseg) :: ·)
  | [.seg_rest n], cs@(_ :: _) => some [(n, String.intercalate "/" cs)]
  | _, _ => none

/-- Number of variable segments of a pattern (the route's
`__matchVarCount`). -/
def patVarCount (pat : List Seg) : Nat :=
  pat.countP fun s => match s with | .lit _ => false | _ => true

/-- Modelled from the spec: a route compiled from a pattern — `__match`
is structural matching of the pattern, `__matchVarCount` its variable
count. -/
def routeOfPattern (pat : List Seg) (ops : String → Option (Req → Cache → Except JSError RespData × Cache)) : Route :=
  { matchVarCount := patVarCount pat,
    matchFn := fun path => matchSegs pat (splitSlash path),
    ops := ops }

/-- A content route on a pattern: `makeRouteWithContents(getData,
setData)` registered under the pattern. -/
def contentRoute (pat : List Seg) (getData : GetData) (setData : SetData) : Route :=
  routeOfPattern pat (contentOps getData setData)

/-- Stable insertion of a route into a list sorted by ascending
`matchVarCount` (goes before the first strictly greater element,
after equal ones that were sorted earlier... i.e. before equal
later elements, matching a stable sort). -/
def insertByCount (r : Route) : List Route → List Route
  | [] => [r]
  | x :: xs => if x.matchVarCount < r.matchVarCount then x :: insertByCount r xs
               else r :: x :: xs

/-- The `sortedRoutes` computation: the registered routes sorted by
ascending `__matchVarCount` (a stable sort, as JS `Array.prototype.sort`
is; modelled by insertion sort). -/
def sortRoutes : List Route → List Route
  | [] => []
  | r :: rs => insertByCount r (sortRoutes rs)

/-- The Apple Double guard of `tryMatchRoute`: does the path match
`/\/\._[^\/]+$/`, i.e. is its last `/`-separated segment `._` followed
by at least one character? -/
def isAppleDoublePath (path : String) : Bool :=
  match (splitSlash path).reverse with
  | last :: _ :: _ =>
    (match last.data with
     | '.' :: '_' :: _ :: _ => true
     | _ => false)
  | _ => false

/-- First route in the list whose `__match` accepts the path, with its
bindings (the loop body of `tryMatchRoute`). -/
def findFirstMatch : List Route → String → Option (Route × List (String × String))
  | [], _ => none
  | r :: rs, path =>
    match r.matchFn path with
    | some vars => some (r, vars)
    | none => findFirstMatch rs path

/-- `tryMatchRoute(path)`: Apple Double sidecar paths raise
`UnixError(ENOTSUP)` before any route is consulted; otherwise the first
match in ascending-`__matchVarCount` order wins; no match raises
`UnixError(ENOENT)`. -/
def tryMatchRoute (routes : List Route) (path : String) :
    Except JSError (Route × List (String × String)) :=
  if isAppleDoublePath path then .error (.unixError unix.ENOTSUP)
  else
    match findFirstMatch (sortRoutes routes) path with
    | some rv => .ok rv
    | none => .error (.unixError unix.ENOENT)

/-- A wire message the dispatcher posts: `{id, op, error}` on failure or
timeout, `{id, op, ...result}` on success. -/
structure Msg where
  id : Nat
  op : String
  error : Option Nat
  data : Option RespData
deriving DecidableEq, Repr

/-- Ingress decoding in `onMessage`: `if (req.buf) req.buf = atob(req.buf)`. -/
def ingressReq (req : Req) : Req :=
  if req.buf = "" then req else { req with buf := atobStr req.buf }

/-- Egress encoding in `onMessage`:
`if (response.buf) response.buf = btoa(response.buf)`. -/
def egressData : RespData → RespData
  | .readBuf s => .readBuf (if s = "" then s else btoaStr s)
  | d => d

/-- The error code the catch block assigns:
`e instanceof UnixError ? e.error : unix.EIO`. -/
def errCode : JSError → Nat
  | .unixError e => e
  | .other => unix.EIO_code

/-- `{...req, ...vars}`: the request merged with the route's variable
bindings. -/
def mergeVars (req : Req) (vars : List (String × String)) : Req :=
  { req with vars := vars }

/-- The body of `onMessage`'s `try` block: resolve the route, look up
the handler for `req.op` (missing handler: `TypeError`), run it. -/
def handleReq (routes : List Route) (req : Req) (c : Cache) :
    Except JSError RespData × Cache :=
  match tryMatchRoute routes req.path with
  | .error e => (.error e, c)
  | .ok (route, vars) =>
    match route.ops req.op with
    | none => (.error .other, c)
    | some f => f (mergeVars req vars) c

/-- The response `onMessage` posts for a settled handler outcome:
success payloads get `op`, egress encoding and `id`; a caught failure
becomes `{op, error: errCode e, id}` — never both payload and error. -/
def buildMsg (req : Req) (r : Except JSError RespData) : Msg :=
  match r with
  | .ok d => { id := req.id, op := req.op, error := none, data := some (egressData d) }
  | .error e => { id := req.id, op := req.op, error := some (errCode e), data := none }

/-- One full `onMessage` run in which the handler settles before the
timeout: ingress decode, route + run, frame the response. -/
def onMessageResult (routes : List Route) (req : Req) (c : Cache) : Msg × Cache :=
  let req1 := ingressReq req
  let (r, c') := handleReq routes req1 c
  (buildMsg req1 r, c')

/-- The timeout response: `{id: req.id, op: req.op, error: unix.ETIMEDOUT}`. -/
def timeoutMsg (req : Req) : Msg :=
  { id := req.id, op := req.op, error := some unix.ETIMEDOUT, data := none }

/-- The two asynchronous events that race inside `onMessage` after the
timeout has been armed: the 1-second timer firing, and the handler's
promise settling (with its `try`/`catch` outcome). -/
inductive DispatchEvent where
  | timerFires
  | handlerSettles (r : Except JSError RespData)

/-- The dispatcher's per-request state: the `didTimeout` flag, whether
the armed timer is still pending (false once fired or cleared via
`clearTimeout`), and the messages posted so far via `port.postMessage`. -/
structure DispatchState where
  didTimeout : Bool
  timerArmed : Bool
  posted : List Msg
deriving DecidableEq, Repr

/-- State when `onMessage` has armed the timeout and awaits the handler. -/
def initDispatch : DispatchState :=
  { didTimeout := false, timerArmed := true, posted := [] }

/-- Effect of one event, following the source: a pending timer fires
(`didTimeout = true`, post the timeout response); a settling handler is
posted only under `if (!didTimeout)`, which also clears the timer. -/
def dispatchStep (req : Req) (s : DispatchState) : DispatchEvent → DispatchState
  | .timerFires =>
    if s.timerArmed then
      { didTimeout := true, timerArmed := false, posted := s.posted ++ [timeoutMsg req] }
    else s
  | .handlerSettles r =>
    if s.didTimeout then s
    else { didTimeout := s.didTimeout, timerArmed := false,
           posted := s.posted ++ [buildMsg req r] }

/-- Run a sequence of events from the armed state. -/
def dispatchRun (req : Req) (evs : List DispatchEvent) : DispatchState :=
  evs.foldl (dispatchStep req) initDispatch

/-- Number of handler-settled events in a trace (a promise settles at
most once, so admissible traces have at most one). -/
def numSettles : List DispatchEvent → Nat
  | [] => 0
  | .handlerSettles _ :: rest => numSettles rest + 1
  | .timerFires :: rest => numSettles rest


/-! Helper lemmas about the handle cache. -/

/-- Lookup misses when no stored key equals the handle. -/
theorem lookupHandle_eq_none (l : List (Nat × CacheEntry)) (h : Nat)
    (hne : ∀ p ∈ l, p.1 ≠ h) : lookupHandle l h = none := by
  induction l with
  | nil => rfl
  | cons p l ih =>
    obtain ⟨k, e⟩ := p
    have hk : k ≠ h := hne (k, e) (by simp)
    simp only [lookupHandle, if_neg hk]
    exact ih fun q hq => hne q (by simp [hq])

/-- Lookup after `setObjectForHandle` at the written handle. -/
theorem lookupHandle_set_self (c : Cache) (h : Nat) (obj : List Nat) :
    lookupHandle (c.setObjectForHandle h obj).store h =
      (lookupHandle c.store h).map fun e => { e with object := obj } := by
  show lookupHandle (c.store.map _) h = _
  induction c.store with
  | nil => rfl
  | cons p l ih =>
    obtain ⟨k, e⟩ := p
    simp only [List.map_cons]
    by_cases hk : k = h
    · subst hk
      rw [if_pos rfl]
      simp [lookupHandle]
    · rw [if_neg hk]
      simp only [lookupHandle, if_neg hk, ih]

/-- Lookup after `removeObjectForHandle` at the removed handle misses. -/
theorem lookupHandle_remove_self (c : Cache) (h : Nat) :
    lookupHandle (c.removeObjectForHandle h).store h = none := by
  show lookupHandle (c.store.filter _) h = none
  induction c.store with
  | nil => rfl
  | cons p l ih =>
    obtain ⟨k, e⟩ := p
    by_cases hk : k = h
    · subst hk
      have hcond : ((k, e).1 != k) = false := by simp
      rw [List.filter_cons, hcond]
      simpa using ih
    · have hcond : ((k, e).1 != h) = true := by simp [bne_iff_ne, hk]
      rw [List.filter_cons, hcond]
      simp only [if_pos, lookupHandle, if_neg hk]
      exact ih

/-- Lookup after `setObjectForPath`: the entry survives, with its buffer
replaced exactly when its path matches. -/
theorem lookupHandle_setPath (c : Cache) (path : String) (obj : List Nat) (h : Nat) :
    lookupHandle (c.setObjectForPath path obj).store h =
      (lookupHandle c.store h).map fun e =>
        if e.path = path then { e with object := obj } else e := by
  show lookupHandle (c.store.map _) h = _
  induction c.store with
  | nil => rfl
  | cons p l ih =>
    obtain ⟨k, e⟩ := p
    simp only [List.map_cons]
    by_cases hp : e.path = path
    · rw [if_pos hp]
      by_cases hk : k = h
      · subst hk
        simp [lookupHandle, hp]
      · simp only [lookupHandle, if_neg hk, ih]
    · rw [if_neg hp]
      by_cases hk : k = h
      · subst hk
        simp [lookupHandle, hp]
      · simp only [lookupHandle, if_neg hk, ih]

/-- `getObjectForHandle` after `setObjectForHandle` at the same handle. -/
theorem getObjectForHandle_set_self (c : Cache) (h : Nat) (obj : List Nat) (e : CacheEntry)
    (he : lookupHandle c.store h = some e) :
    (c.setObjectForHandle h obj).getObjectForHandle h = some obj := by
  simp [Cache.getObjectForHandle, lookupHandle_set_self, he]

/-- `getObjectForHandle` after `removeObjectForHandle` misses. -/
theorem getObjectForHandle_remove_self (c : Cache) (h : Nat) :
    (c.removeObjectForHandle h).getObjectForHandle h = none := by
  simp [Cache.getObjectForHandle, lookupHandle_remove_self]


/-! Claim C1: open caches once, read serves only the cache. -/

/-- C1: on a content route, `open` calls the read-accessor once and
caches the UTF-8 encoding of its result under a fresh handle; every
subsequent `read(handle, offset, size)` returns up to `size` bytes of
that cached buffer from `offset` (zero bytes, not an error, when
`offset` is at or beyond the end) without consulting the read-accessor
again (`readOp` takes no accessor at all), so reads see open-time bytes
even if the accessor's value changes afterwards. -/
theorem c1_open_read_cache_isolation
    (getData : GetData) (req : Req) (c : Cache) (s : String)
    (hfresh : ∀ p ∈ c.store, p.1 ≤ c.nextHandle)
    (hget : getData req = .ok (.str s)) :
    openOp getData req c =
      (.ok (c.nextHandle + 1), (c.storeObject req.path (stringToUtf8Array s)).2) ∧
    c.getObjectForHandle (c.nextHandle + 1) = none ∧
    (c.storeObject req.path (stringToUtf8Array s)).2.getObjectForHandle (c.nextHandle + 1) =
      some (stringToUtf8Array s) ∧
    (∀ req2 : Req, req2.fh = c.nextHandle + 1 →
      readOp req2 (c.storeObject req.path (stringToUtf8Array s)).2 =
        .ok (fromCharCodes (((stringToUtf8Array s).drop req2.offset).take req2.size)) ∧
      ((stringToUtf8Array s).length ≤ req2.offset →
        readOp req2 (c.storeObject req.path (stringToUtf8Array s)).2 = .ok "")) := by
  refine ⟨?_, ?_, ?_, ?_⟩
  · simp [openOp, hget, toUtf8Array, Cache.storeObject]
  · have : lookupHandle c.store (c.nextHandle + 1) = none := by
      refine lookupHandle_eq_none _ _ fun p hp => ?_
      have := hfresh p hp
      omega
    simp [Cache.getObjectForHandle, this]
  · simp [Cache.storeObject, Cache.getObjectForHandle, lookupHandle]
  · intro req2 hfh
    have hlook : (c.storeObject req.path (stringToUtf8Array s)).2.getObjectForHandle req2.fh =
        some (stringToUtf8Array s) := by
      simp [Cache.storeObject, Cache.getObjectForHandle, lookupHandle, hfh]
    constructor
    · simp [readOp, hlook]
    · intro hoff
      have hdrop : (stringToUtf8Array s).drop req2.offset = [] :=
        List.drop_eq_nil_of_le hoff
      simp [readOp, hlook, hdrop]
      rfl

/-- Witness for C1 at a concrete input: a route whose accessor returns
`"hi"`, opened on the empty cache, yields handle 1 caching `[104, 105]`;
a read at offset 1, size 5 returns the binary string `"i"`, and any read
at offset ≥ 2 returns the empty string. -/
theorem c1_witness :
    (∀ p ∈ ({ store := [], nextHandle := 0 } : Cache).store, p.1 ≤ 0) ∧
    ((fun _ => .ok (.str "hi") : GetData) { id := 1, op := "open", path := "/f" } =
      .ok (.str "hi")) ∧
    readOp { id := 2, op := "read", path := "/f", fh := 1, offset := 1, size := 5 }
      (Cache.storeObject { store := [], nextHandle := 0 } "/f" (stringToUtf8Array "hi")).2 =
      .ok (fromCharCodes [105]) ∧
    readOp { id := 3, op := "read", path := "/f", fh := 1, offset := 2, size := 5 }
      (Cache.storeObject { store := [], nextHandle := 0 } "/f" (stringToUtf8Array "hi")).2 =
      .ok "" := by
  refine ⟨by simp, rfl, ?_, ?_⟩
  · exact ((c1_open_read_cache_isolation (fun _ => .ok (.str "hi"))
      { id := 1, op := "open", path := "/f" } { store := [], nextHandle := 0 } "hi"
      (by simp) rfl).2.2.2
      { id := 2, op := "read", path := "/f", fh := 1, offset := 1, size := 5 } rfl).1
  · exact ((c1_open_read_cache_isolation (fun _ => .ok (.str "hi"))
      { id := 1, op := "open", path := "/f" } { store := [], nextHandle := 0 } "hi"
      (by simp) rfl).2.2.2
      { id := 3, op := "read", path := "/f", fh := 1, offset := 2, size := 5 } rfl).2
      (by decide)

/-! Claim C2: write semantics — growth, zero-fill, whole-buffer handoff. -/

/-- C2: `write(handle, offset, buf)` on a content route: when
`offset + |buf|` exceeds the buffer length the buffer becomes exactly
`offset + |buf|` bytes — prior bytes below `offset` preserved, the gap
between the old length and `offset` zero-filled — with `buf` at
`offset`; the whole resulting buffer (never just the written slice) is
decoded and handed to the write-accessor, and the operation returns the
number of bytes written. -/
theorem c2_write_grow_and_full_handoff
    (f : Req → String → Except JSError Unit) (req : Req) (c : Cache) (arr : List Nat)
    (harr : c.getObjectForHandle req.fh = some arr) :
    writeOp (some f) req c =
      ((f req (utf8ArrayToString (writeBytes arr (stringToUtf8Array req.buf) req.offset))).map
        (fun _ => (stringToUtf8Array req.buf).length),
       c.setObjectForHandle req.fh (writeBytes arr (stringToUtf8Array req.buf) req.offset)) ∧
    (c.setObjectForHandle req.fh
        (writeBytes arr (stringToUtf8Array req.buf) req.offset)).getObjectForHandle req.fh =
      some (writeBytes arr (stringToUtf8Array req.buf) req.offset) ∧
    (arr.length < req.offset + (stringToUtf8Array req.buf).length →
      (writeBytes arr (stringToUtf8Array req.buf) req.offset).length =
        req.offset + (stringToUtf8Array req.buf).length ∧
      (∀ i, i < req.offset → i < arr.length →
        (writeBytes arr (stringToUtf8Array req.buf) req.offset)[i]? = arr[i]?) ∧
      (∀ i, arr.length ≤ i → i < req.offset →
        (writeBytes arr (stringToUtf8Array req.buf) req.offset)[i]? = some 0) ∧
      (∀ i, i < (stringToUtf8Array req.buf).length →
        (writeBytes arr (stringToUtf8Array req.buf) req.offset)[req.offset + i]? =
          (stringToUtf8Array req.buf)[i]?)) := by
  refine ⟨?_, ?_, ?_⟩
  · show writeOp (some f) req c = _
    simp only [writeOp, harr]
    cases hf : f req (utf8ArrayToString (writeBytes arr (stringToUtf8Array req.buf) req.offset)) <;>
      simp [Except.map]
  · cases hl : lookupHandle c.store req.fh with
    | none => simp [Cache.getObjectForHandle, hl] at harr
    | some e => exact getObjectForHandle_set_self c req.fh _ e hl
  · intro hgrow
    refine ⟨?_, ?_, ?_, ?_⟩
    · simp only [writeBytes, if_pos hgrow, List.length_append, List.length_take,
        List.length_replicate]
      omega
    · intro i hio hia
      simp only [writeBytes, if_pos hgrow]
      rw [List.getElem?_append,
        if_pos (by simp only [List.length_append, List.length_take, List.length_replicate]; omega)]
      rw [List.getElem?_append, if_pos (by simp only [List.length_take]; omega)]
      simp [List.getElem?_take, hio]
    · intro i hai hio
      simp only [writeBytes, if_pos hgrow]
      rw [List.getElem?_append,
        if_pos (by simp only [List.length_append, List.length_take, List.length_replicate]; omega)]
      rw [List.getElem?_append, if_neg (by simp only [List.length_take]; omega)]
      rw [List.getElem?_replicate, if_pos (by simp only [List.length_take]; omega)]
    · intro i hib
      simp only [writeBytes, if_pos hgrow]
      rw [List.getElem?_append,
        if_neg (by simp only [List.length_append, List.length_take, List.length_replicate]; omega)]
      congr 1
      simp only [List.length_append, List.length_take, List.length_replicate]
      omega

/-- Witness for C2 at the spec's own example: writing `"X"` at offset 5
into a handle opened on `""` yields the 6-byte buffer
`[0, 0, 0, 0, 0, 88]`, the accessor receives that entire buffer decoded,
and the call returns 1 byte written. -/
theorem c2_witness :
    (Cache.getObjectForHandle
        { store := [(1, { path := "/f", object := [] })], nextHandle := 1 } 1 = some []) ∧
    writeBytes [] (stringToUtf8Array "X") 5 = [0, 0, 0, 0, 0, 88] ∧
    writeOp (some fun _ _ => .ok ())
        { id := 2, op := "write", path := "/f", fh := 1, offset := 5, buf := "X" }
        { store := [(1, { path := "/f", object := [] })], nextHandle := 1 } =
      (((fun (_ : Req) (_ : String) => (.ok () : Except JSError Unit))
          { id := 2, op := "write", path := "/f", fh := 1, offset := 5, buf := "X" }
          (utf8ArrayToString (writeBytes [] (stringToUtf8Array "X") 5))).map
        (fun _ => (stringToUtf8Array "X").length),
       Cache.setObjectForHandle
         { store := [(1, { path := "/f", object := [] })], nextHandle := 1 } 1
         (writeBytes [] (stringToUtf8Array "X") 5)) ∧
    writeOp (some fun _ _ => .ok ())
        { id := 2, op := "write", path := "/f", fh := 1, offset := 5, buf := "X" }
        { store := [(1, { path := "/f", object := [] })], nextHandle := 1 } =
      (.ok 1, { store := [(1, { path := "/f", object := [0, 0, 0, 0, 0, 88] })], nextHandle := 1 }) := by
  refine ⟨by decide, by decide, ?_, rfl⟩
  exact (c2_write_grow_and_full_handoff (fun _ _ => .ok ())
    { id := 2, op := "write", path := "/f", fh := 1, offset := 5, buf := "X" }
    { store := [(1, { path := "/f", object := [] })], nextHandle := 1 } []
    (by decide)).1

/-! Claim C3: truncate — re-fetch, resize, propagate, forward. -/

/-- The resize always equals "keep `size` bytes, zero-pad beyond the old
length" (also when the size is unchanged and the source skips the copy). -/
theorem truncateBytes_eq (arr : List Nat) (size : Nat) :
    truncateBytes arr size = arr.take size ++ List.replicate (size - arr.length) 0 := by
  unfold truncateBytes
  by_cases h : size = arr.length
  · rw [if_neg (by simp [h])]
    subst h
    simp
  · rw [if_pos h]

/-- C3: `truncate(newSize)` on a content route re-fetches the contents
from the read-accessor (never from a handle's cache — the conclusion
depends only on the accessor's current value `s`, not on any cached
buffer), resizes to exactly `newSize` (trailing bytes dropped on
shrink, zero bytes appended on grow), replaces the cached buffer of
every open handle whose path equals the request path (so their next
`read` serves the resized bytes), and forwards the full resized
contents, decoded, to the write-accessor. -/
theorem c3_truncate_refetch_resize_propagate
    (getData : GetData) (f : Req → String → Except JSError Unit) (req : Req)
    (c : Cache) (s : String)
    (hget : getData req = .ok (.str s)) :
    truncateOp getData (some f) req c =
      ((f req (utf8ArrayToString (truncateBytes (stringToUtf8Array s) req.size))).map
        (fun _ => ()),
       c.setObjectForPath req.path (truncateBytes (stringToUtf8Array s) req.size)) ∧
    (truncateBytes (stringToUtf8Array s) req.size).length = req.size ∧
    (∀ i, i < req.size → i < (stringToUtf8Array s).length →
      (truncateBytes (stringToUtf8Array s) req.size)[i]? = (stringToUtf8Array s)[i]?) ∧
    (∀ i, (stringToUtf8Array s).length ≤ i → i < req.size →
      (truncateBytes (stringToUtf8Array s) req.size)[i]? = some 0) ∧
    (∀ h e, lookupHandle c.store h = some e → e.path = req.path →
      (c.setObjectForPath req.path
          (truncateBytes (stringToUtf8Array s) req.size)).getObjectForHandle h =
        some (truncateBytes (stringToUtf8Array s) req.size) ∧
      (∀ req2 : Req, req2.fh = h →
        readOp req2 (c.setObjectForPath req.path
            (truncateBytes (stringToUtf8Array s) req.size)) =
          .ok (fromCharCodes
            (((truncateBytes (stringToUtf8Array s) req.size).drop req2.offset).take req2.size)))) := by
  refine ⟨?_, ?_, ?_, ?_, ?_⟩
  · show truncateOp getData (some f) req c = _
    simp only [truncateOp, hget, toUtf8Array, truncateWith]
    cases hf : f req (utf8ArrayToString (truncateBytes (stringToUtf8Array s) req.size)) <;>
      simp [Except.map]
  · rw [truncateBytes_eq]
    simp only [List.length_append, List.length_take, List.length_replicate]
    omega
  · intro i his hil
    rw [truncateBytes_eq]
    rw [List.getElem?_append, if_pos (by simp only [List.length_take]; omega)]
    simp [List.getElem?_take, his]
  · intro i hli his
    rw [truncateBytes_eq]
    rw [List.getElem?_append, if_neg (by simp only [List.length_take]; omega)]
    rw [List.getElem?_replicate, if_pos (by simp only [List.length_take]; omega)]
  · intro h e he hpath
    have hlook : (c.setObjectForPath req.path
        (truncateBytes (stringToUtf8Array s) req.size)).getObjectForHandle h =
        some (truncateBytes (stringToUtf8Array s) req.size) := by
      simp [Cache.getObjectForHandle, lookupHandle_setPath, he, hpath]
    refine ⟨hlook, fun req2 hfh => ?_⟩
    simp [readOp, hfh, hlook]

/-- Witness for C3: the accessor currently returns `"abc"`; handle 1 on
`"/f"` holds a stale one-byte buffer and handle 2 is on another path.
`truncate` to size 2 produces `[97, 98]` (from the accessor, not the
stale cache), replaces handle 1's buffer, leaves handle 2 alone, and a
read on handle 1 now serves the resized bytes. -/
theorem c3_witness :
    ((fun _ => .ok (.str "abc") : GetData) { id := 5, op := "truncate", path := "/f", size := 2 } =
      .ok (.str "abc")) ∧
    truncateBytes (stringToUtf8Array "abc") 2 = [97, 98] ∧
    truncateOp (fun _ => .ok (.str "abc")) (some fun _ _ => .ok ())
        { id := 5, op := "truncate", path := "/f", size := 2 }
        { store := [(1, { path := "/f", object := [0] }),
                    (2, { path := "/g", object := [7] })], nextHandle := 2 } =
      (.ok (), { store := [(1, { path := "/f", object := [97, 98] }),
                           (2, { path := "/g", object := [7] })], nextHandle := 2 }) ∧
    readOp { id := 6, op := "read", path := "/f", fh := 1, offset := 0, size := 100 }
        (Cache.setObjectForPath
          { store := [(1, { path := "/f", object := [0] }),
                      (2, { path := "/g", object := [7] })], nextHandle := 2 }
          "/f" (truncateBytes (stringToUtf8Array "abc") 2)) =
      .ok (fromCharCodes [97, 98]) := by
  refine ⟨rfl, by decide, rfl, ?_⟩
  exact (((c3_truncate_refetch_resize_propagate (fun _ => .ok (.str "abc"))
      (fun _ _ => .ok ())
      { id := 5, op := "truncate", path := "/f", size := 2 }
      { store := [(1, { path := "/f", object := [0] }),
                  (2, { path := "/g", object := [7] })], nextHandle := 2 } "abc"
      rfl).2.2.2.2 1 { path := "/f", object := [0] } (by decide) rfl).2
      { id := 6, op := "read", path := "/f", fh := 1, offset := 0, size := 100 } rfl)

/-! Claim C7: getattr metadata. -/

/-- C7: `getattr` on a content route consults the read-accessor on each
call (its outcome is a function of the accessor's current result,
including propagating its failure): `undefined` fails with not-found;
otherwise it returns regular-file type with read bits `0444` always and
write bits `0222` exactly when a write-accessor was supplied, link
count 1, and size the byte length of the UTF-8 encoding of the current
contents. -/
theorem c7_getattr_metadata (getData : GetData) (sd : SetData) (req : Req) (s : String) :
    (getData req = .ok .undef →
      getattrOp getData sd req = .error (.unixError unix.ENOENT)) ∧
    (∀ e, getData req = .error e → getattrOp getData sd req = .error e) ∧
    (getData req = .ok (.str s) →
      getattrOp getData sd req =
        .ok { st_mode := unix.S_IFREG ||| 0o444 ||| (if sd.isSome then 0o222 else 0),
              st_nlink := 1,
              st_size := (stringToUtf8Array s).length }) ∧
    (∀ b : Bool, (unix.S_IFREG ||| 0o444 ||| (if b then 0o222 else 0)) &&& 0o222 =
      if b then 0o222 else 0) := by
  refine ⟨?_, ?_, ?_, ?_⟩
  · intro h
    simp [getattrOp, h]
  · intro e h
    simp [getattrOp, h]
  · intro h
    simp [getattrOp, h, toUtf8Array]
  · intro b
    cases b <;> decide

/-- Witness for C7 at the spec's end-to-end example: a read-only route
whose accessor returns `"[]"` stats as `st_mode = 0o100444 = 33060`,
`st_nlink = 1`, `st_size = 2`, and the dispatcher frames exactly
`{id: 1, op: "getattr", st_mode, st_nlink, st_size}` for it. -/
theorem c7_witness :
    ((fun _ => .ok (.str "[]") : GetData) { id := 1, op := "getattr", path := "/tabs.json" } =
      .ok (.str "[]")) ∧
    getattrOp (fun _ => .ok (.str "[]")) none { id := 1, op := "getattr", path := "/tabs.json" } =
      .ok { st_mode := 33060, st_nlink := 1, st_size := 2 } ∧
    (onMessageResult
        [contentRoute [.lit "", .lit "tabs.json"] (fun _ => .ok (.str "[]")) none]
        { id := 1, op := "getattr", path := "/tabs.json" }
        { store := [], nextHandle := 0 }).1 =
      { id := 1, op := "getattr", error := none, data := some (.stat 33060 1 2) } := by
  refine ⟨rfl, ?_, by decide⟩
  exact (c7_getattr_metadata (fun _ => .ok (.str "[]")) none
    { id := 1, op := "getattr", path := "/tabs.json" } "[]").2.2.1 rfl

/-! Claim C8: every failure is caught and mapped; responses carry a
payload or an error, never both. -/

/-- C8: whatever the route table, request and cache — hence whatever
failure route resolution or the handler produces — the dispatcher frames
exactly one response for the run: a typed `UnixError` becomes its
declared code, any other thrown value becomes the generic I/O error
code, a success becomes its (egress-encoded) payload; and the framed
response carries either a success payload or an error code, never
both. -/
theorem c8_dispatcher_error_mapping (routes : List Route) (req : Req) (c : Cache) :
    (match (handleReq routes (ingressReq req) c).1 with
     | .ok d =>
       (onMessageResult routes req c).1.error = none ∧
       (onMessageResult routes req c).1.data = some (egressData d)
     | .error (.unixError code) =>
       (onMessageResult routes req c).1.error = some code ∧
       (onMessageResult routes req c).1.data = none
     | .error .other =>
       (onMessageResult routes req c).1.error = some unix.EIO_code ∧
       (onMessageResult routes req c).1.data = none) ∧
    ((∃ d, (onMessageResult routes req c).1.error = none ∧
        (onMessageResult routes req c).1.data = some d) ∨
     (∃ code, (onMessageResult routes req c).1.error = some code ∧
        (onMessageResult routes req c).1.data = none)) := by
  have hb : (onMessageResult routes req c).1 =
      buildMsg (ingressReq req) (handleReq routes (ingressReq req) c).1 := rfl
  cases hr : (handleReq routes (ingressReq req) c).1 with
  | ok d =>
    rw [hr] at hb
    rw [hb]
    exact ⟨⟨rfl, rfl⟩, .inl ⟨egressData d, rfl, rfl⟩⟩
  | error e =>
    rw [hr] at hb
    cases e with
    | unixError code =>
      rw [hb]
      exact ⟨⟨rfl, rfl⟩, .inr ⟨code, rfl, rfl⟩⟩
    | other =>
      rw [hb]
      exact ⟨⟨rfl, rfl⟩, .inr ⟨unix.EIO_code, rfl, rfl⟩⟩

/-! Claim C9 (corrected): operations on a released handle. -/

/-- C9 (amended): `release(handle)` removes the handle's cache entry;
a subsequent `read` or `write` referencing that handle raises the
untyped lookup failure, which the dispatcher frames as a generic
I/O-error response with no data (it neither crashes nor returns data);
a subsequent `release` of the same handle, however, silently succeeds
as a no-op — it is not rejected. -/
theorem c9_release_then_stale_ops (req : Req) (c : Cache) (sd : SetData) :
    (releaseOp req c).1 = .ok () ∧
    ((releaseOp req c).2).getObjectForHandle req.fh = none ∧
    (∀ req2 : Req, readOp { req2 with fh := req.fh } (releaseOp req c).2 = .error .other) ∧
    (∀ req2 : Req, writeOp sd { req2 with fh := req.fh } (releaseOp req c).2 =
      (.error .other, (releaseOp req c).2)) ∧
    (∀ req2 : Req, buildMsg { req2 with fh := req.fh } (.error .other) =
      { id := req2.id, op := req2.op, error := some unix.EIO_code, data := none }) ∧
    (∀ req2 : Req, (releaseOp { req2 with fh := req.fh } (releaseOp req c).2).1 = .ok ()) := by
  have hnone : ((releaseOp req c).2).getObjectForHandle req.fh = none :=
    getObjectForHandle_remove_self c req.fh
  refine ⟨rfl, hnone, ?_, ?_, fun _ => rfl, fun _ => rfl⟩
  · intro req2
    simp [readOp, hnone]
  · intro req2
    simp [writeOp, hnone]

/-- Counterexample for C9 as stated: after handle 1 is released, a
second `release` of handle 1 is not rejected — it silently succeeds
(`{}` with no error), where the claim demands an error response for
every subsequent operation on the handle, including `release`. -/
theorem c9_counterexample :
    (releaseOp { id := 8, op := "release", path := "/x", fh := 1 }
        { store := [(1, { path := "/x", object := [] })], nextHandle := 1 }).2 =
      { store := [], nextHandle := 1 } ∧
    (releaseOp { id := 9, op := "release", path := "/x", fh := 1 }
        { store := [], nextHandle := 1 }).1 = .ok () ∧
    (onMessageResult [contentRoute [.lit "", .lit "x"] (fun _ => .ok (.str "")) none]
        { id := 9, op := "release", path := "/x", fh := 1 }
        { store := [], nextHandle := 1 }).1 =
      { id := 9, op := "release", error := none, data := some .empty } := by
  exact ⟨by decide, rfl, by decide⟩

/-! Claim C10: write on a route without a write-accessor. -/

/-- C10: on a content route built without a write-accessor, `write` on
an open handle does not succeed: invoking the absent accessor raises an
untyped failure which the dispatcher maps to the generic I/O-error code
(not permission-denied) — yet the handle's cached buffer has already
been replaced with the written bytes before that failure, so the failed
write is not atomic with respect to the handle cache. -/
theorem c10_write_without_accessor (req : Req) (c : Cache) (arr : List Nat)
    (harr : c.getObjectForHandle req.fh = some arr) :
    writeOp none req c =
      (.error .other,
       c.setObjectForHandle req.fh (writeBytes arr (stringToUtf8Array req.buf) req.offset)) ∧
    (c.setObjectForHandle req.fh
        (writeBytes arr (stringToUtf8Array req.buf) req.offset)).getObjectForHandle req.fh =
      some (writeBytes arr (stringToUtf8Array req.buf) req.offset) ∧
    errCode .other = unix.EIO_code ∧
    unix.EIO_code ≠ unix.EPERM ∧
    buildMsg req (.error .other) =
      { id := req.id, op := req.op, error := some unix.EIO_code, data := none } := by
  refine ⟨?_, ?_, rfl, by decide, rfl⟩
  · simp [writeOp, harr]
  · cases hl : lookupHandle c.store req.fh with
    | none => simp [Cache.getObjectForHandle, hl] at harr
    | some e => exact getObjectForHandle_set_self c req.fh _ e hl

/-- Witness for C10: handle 1 caches `[104]`; a write of `"i"` at
offset 1 on a route with no write-accessor returns the untyped failure
(framed as EIO), while the cached buffer has already become
`[104, 105]`. -/
theorem c10_witness :
    (Cache.getObjectForHandle
        { store := [(1, { path := "/f", object := [104] })], nextHandle := 1 } 1 = some [104]) ∧
    writeOp none { id := 4, op := "write", path := "/f", fh := 1, offset := 1, buf := "i" }
        { store := [(1, { path := "/f", object := [104] })], nextHandle := 1 } =
      (.error .other,
       Cache.setObjectForHandle
         { store := [(1, { path := "/f", object := [104] })], nextHandle := 1 } 1
         (writeBytes [104] (stringToUtf8Array "i") 1)) ∧
    writeOp none { id := 4, op := "write", path := "/f", fh := 1, offset := 1, buf := "i" }
        { store := [(1, { path := "/f", object := [104] })], nextHandle := 1 } =
      (.error .other,
       { store := [(1, { path := "/f", object := [104, 105] })], nextHandle := 1 }) := by
  refine ⟨by decide, ?_, rfl⟩
  exact (c10_write_without_accessor
    { id := 4, op := "write", path := "/f", fh := 1, offset := 1, buf := "i" }
    { store := [(1, { path := "/f", object := [104] })], nextHandle := 1 } [104]
    (by decide)).1

/-! Claim C5: per-request timeout — at most one response per request id. -/

/-- Once the timeout has fired, the dispatcher is inert: the timer
cannot fire again and a late-settling handler is suppressed by the
`didTimeout` guard, so no further message is posted. -/
theorem dispatch_absorb_after_timeout (req : Req) (p : List Msg) (evs : List DispatchEvent) :
    evs.foldl (dispatchStep req) { didTimeout := true, timerArmed := false, posted := p } =
      { didTimeout := true, timerArmed := false, posted := p } := by
  induction evs with
  | nil => rfl
  | cons e evs ih =>
    cases e with
    | timerFires => simpa [dispatchStep] using ih
    | handlerSettles r => simpa [dispatchStep] using ih

/-- Once the handler has settled in time (timer cleared), a trace with
no further settle events posts nothing more: the cleared timer never
fires. -/
theorem dispatch_absorb_after_settle (req : Req) (p : List Msg) (evs : List DispatchEvent)
    (h : numSettles evs = 0) :
    evs.foldl (dispatchStep req) { didTimeout := false, timerArmed := false, posted := p } =
      { didTimeout := false, timerArmed := false, posted := p } := by
  induction evs with
  | nil => rfl
  | cons e evs ih =>
    cases e with
    | timerFires =>
      have h' : numSettles evs = 0 := by simpa [numSettles] using h
      simpa [dispatchStep] using ih h'
    | handlerSettles r =>
      exfalso
      simp [numSettles] at h

/-- Every message the dispatcher can post for a request carries that
request's id. -/
theorem buildMsg_id (req : Req) (r : Except JSError RespData) : (buildMsg req r).id = req.id := by
  cases r <;> rfl

/-- C5: for each request (whose handler, being a promise, settles at
most once) the dispatcher emits at most one response, every emitted
response carries the request's id, and: if the timer fires before the
handler settles, exactly the operation-timed-out response is emitted
and the handler's later outcome is discarded; if the handler settles
first, the timer is cleared and exactly the one success-or-error
response is emitted. -/
theorem c5_at_most_one_response (req : Req) (evs : List DispatchEvent)
    (hone : numSettles evs ≤ 1) :
    (dispatchRun req evs).posted.length ≤ 1 ∧
    (∀ m ∈ (dispatchRun req evs).posted, m.id = req.id) ∧
    (∀ rest, evs = DispatchEvent.timerFires :: rest →
      (dispatchRun req evs).posted = [timeoutMsg req]) ∧
    (∀ r rest, evs = DispatchEvent.handlerSettles r :: rest →
      (dispatchRun req evs).posted = [buildMsg req r] ∧
      (dispatchRun req evs).timerArmed = false) := by
  cases evs with
  | nil =>
    refine ⟨by simp [dispatchRun, initDispatch], by simp [dispatchRun, initDispatch], ?_, ?_⟩
    · intro rest h
      cases h
    · intro r rest h
      cases h
  | cons e rest =>
    cases e with
    | timerFires =>
      have hrun : dispatchRun req (DispatchEvent.timerFires :: rest) =
          { didTimeout := true, timerArmed := false, posted := [timeoutMsg req] } := by
        show rest.foldl (dispatchStep req) (dispatchStep req initDispatch .timerFires) = _
        rw [show dispatchStep req initDispatch .timerFires =
          { didTimeout := true, timerArmed := false, posted := [timeoutMsg req] } from rfl]
        exact dispatch_absorb_after_timeout req [timeoutMsg req] rest
      refine ⟨by rw [hrun]; simp, by rw [hrun]; simp [timeoutMsg], ?_, ?_⟩
      · intro rest' h
        rw [hrun]
      · intro r rest' h
        cases h
    | handlerSettles r =>
      have h0 : numSettles rest = 0 := by
        simp only [numSettles] at hone
        omega
      have hrun : dispatchRun req (DispatchEvent.handlerSettles r :: rest) =
          { didTimeout := false, timerArmed := false, posted := [buildMsg req r] } := by
        show rest.foldl (dispatchStep req) (dispatchStep req initDispatch (.handlerSettles r)) = _
        rw [show dispatchStep req initDispatch (.handlerSettles r) =
          { didTimeout := false, timerArmed := false, posted := [buildMsg req r] } from rfl]
        exact dispatch_absorb_after_settle req [buildMsg req r] rest h0
      refine ⟨by rw [hrun]; simp, ?_, ?_, ?_⟩
      · rw [hrun]
        intro m hm
        simp at hm
        rw [hm]
        exact buildMsg_id req r
      · intro rest' h
        cases h
      · intro r' rest' h
        injection h with h1 h2
        injection h1 with h3
        subst h3
        exact ⟨by rw [hrun], by rw [hrun]⟩

/-- Witness for C5 at concrete traces: with the timer firing first and
the handler settling late, exactly the ETIMEDOUT response for the
request id is posted and the late result is discarded; with the handler
settling first and the (cleared) timer event arriving late, exactly the
one framed response is posted. -/
theorem c5_witness :
    numSettles [DispatchEvent.timerFires, DispatchEvent.handlerSettles (.ok .empty)] ≤ 1 ∧
    (dispatchRun { id := 7, op := "read", path := "/f" }
        [DispatchEvent.timerFires, DispatchEvent.handlerSettles (.ok .empty)]).posted =
      [{ id := 7, op := "read", error := some unix.ETIMEDOUT, data := none }] ∧
    (dispatchRun { id := 7, op := "read", path := "/f" }
        [DispatchEvent.handlerSettles (.ok .empty), DispatchEvent.timerFires]).posted =
      [{ id := 7, op := "read", error := none, data := some .empty }] := by
  refine ⟨by decide, ?_, ?_⟩
  · exact (c5_at_most_one_response { id := 7, op := "read", path := "/f" }
      [DispatchEvent.timerFires, DispatchEvent.handlerSettles (.ok .empty)]
      (by decide)).2.2.1 [DispatchEvent.handlerSettles (.ok .empty)] rfl
  · exact ((c5_at_most_one_response { id := 7, op := "read", path := "/f" }
      [DispatchEvent.handlerSettles (.ok .empty), DispatchEvent.timerFires]
      (by decide)).2.2.2 (.ok .empty) [DispatchEvent.timerFires] rfl).1

/-! Claim C6 (corrected): route resolution order. -/

/-- Membership is preserved by the sorted insertion. -/
theorem mem_insertByCount (r x : Route) (l : List Route) :
    x ∈ insertByCount r l ↔ x = r ∨ x ∈ l := by
  induction l with
  | nil => simp [insertByCount]
  | cons y ys ih =>
    by_cases h : y.matchVarCount < r.matchVarCount
    · simp only [insertByCount, if_pos h, List.mem_cons, ih]
      tauto
    · simp only [insertByCount, if_neg h, List.mem_cons]

/-- Sorted insertion preserves ascending-`matchVarCount` order. -/
theorem pairwise_insertByCount (r : Route) (l : List Route)
    (hl : l.Pairwise fun a b => a.matchVarCount ≤ b.matchVarCount) :
    (insertByCount r l).Pairwise fun a b => a.matchVarCount ≤ b.matchVarCount := by
  induction l with
  | nil => simp [insertByCount]
  | cons y ys ih =>
    rcases List.pairwise_cons.mp hl with ⟨hy, hys⟩
    by_cases h : y.matchVarCount < r.matchVarCount
    · rw [insertByCount, if_pos h]
      refine List.pairwise_cons.mpr ⟨?_, ih hys⟩
      intro z hz
      rcases (mem_insertByCount r z ys).mp hz with hz | hz
      · subst hz
        omega
      · exact hy z hz
    · rw [insertByCount, if_neg h]
      refine List.pairwise_cons.mpr ⟨?_, hl⟩
      intro z hz
      rcases List.mem_cons.mp hz with hz | hz
      · subst hz
        omega
      · exact Nat.le_trans (by omega) (hy z hz)

/-- `sortRoutes` preserves the set of registered routes. -/
theorem mem_sortRoutes (x : Route) (l : List Route) :
    x ∈ sortRoutes l ↔ x ∈ l := by
  induction l with
  | nil => simp [sortRoutes]
  | cons r rs ih =>
    rw [sortRoutes, mem_insertByCount]
    simp [ih]

/-- `sortRoutes` sorts by ascending `__matchVarCount`. -/
theorem pairwise_sortRoutes (l : List Route) :
    (sortRoutes l).Pairwise fun a b => a.matchVarCount ≤ b.matchVarCount := by
  induction l with
  | nil => simp [sortRoutes]
  | cons r rs ih => exact pairwise_insertByCount r (sortRoutes rs) ih

/-- A found first match is a member and does match. -/
theorem findFirstMatch_spec (l : List Route) (path : String) (R : Route)
    (vars : List (String × String)) (h : findFirstMatch l path = some (R, vars)) :
    R ∈ l ∧ R.matchFn path = some vars := by
  induction l with
  | nil => cases h
  | cons r rs ih =>
    rw [findFirstMatch] at h
    cases hm : r.matchFn path with
    | some v =>
      rw [hm] at h
      injection h with h'
      injection h' with h1 h2
      subst h1
      subst h2
      exact ⟨by simp, hm⟩
    | none =>
      rw [hm] at h
      rcases ih h with ⟨hmem, hmatch⟩
      exact ⟨by simp [hmem], hmatch⟩

/-- If some member matches, the scan finds a first match. -/
theorem findFirstMatch_isSome (l : List Route) (path : String) (R : Route)
    (vars : List (String × String)) (hR : R ∈ l) (hm : R.matchFn path = some vars) :
    ∃ rv, findFirstMatch l path = some rv := by
  induction l with
  | nil => cases hR
  | cons r rs ih =>
    rw [findFirstMatch]
    cases hr : r.matchFn path with
    | some v => exact ⟨(r, v), rfl⟩
    | none =>
      rcases List.mem_cons.mp hR with hR | hR
      · subst hR
        rw [hr] at hm
        cases hm
      · exact ih hR

/-- With the list sorted by ascending variable count, the first match
has minimal variable count among all matching members. -/
theorem findFirstMatch_min (l : List Route) (path : String) (R : Route)
    (vars : List (String × String))
    (hp : l.Pairwise fun a b => a.matchVarCount ≤ b.matchVarCount)
    (h : findFirstMatch l path = some (R, vars)) :
    ∀ y ∈ l, ∀ w, y.matchFn path = some w → R.matchVarCount ≤ y.matchVarCount := by
  induction l with
  | nil => cases h
  | cons r rs ih =>
    rcases List.pairwise_cons.mp hp with ⟨hr, hrs⟩
    rw [findFirstMatch] at h
    cases hm : r.matchFn path with
    | some v =>
      rw [hm] at h
      injection h with h'
      injection h' with h1 h2
      subst h1
      intro y hy w hw
      rcases List.mem_cons.mp hy with hy | hy
      · subst hy
        exact Nat.le_refl _
      · exact hr y hy
    | none =>
      rw [hm] at h
      intro y hy w hw
      rcases List.mem_cons.mp hy with hy | hy
      · subst hy
        rw [hm] at hw
        cases hw
      · exact ih hrs h y hy w hw

/-- If nothing matches, the scan finds nothing. -/
theorem findFirstMatch_none (l : List Route) (path : String)
    (h : ∀ y ∈ l, y.matchFn path = none) : findFirstMatch l path = none := by
  induction l with
  | nil => rfl
  | cons r rs ih =>
    rw [findFirstMatch, h r (by simp)]
    exact ih fun y hy => h y (by simp [hy])

/-- C6 (amended): for a path that is not an Apple Double sidecar path
(those fail with not-supported before any route is consulted),
resolution scans the routes in ascending `__matchVarCount` order and
returns the first structural match with its bindings: whenever
registered routes R1 (k variables) and R2 (k+1 variables) both match
the path, the returned route is a matching route of variable count at
most k — strictly below R2's, so R2 is never returned; and if no
registered route matches, resolution fails with not-found. -/
theorem c6_resolution_order (routes : List Route) (path : String)
    (hns : isAppleDoublePath path = false) :
    (∀ (R1 R2 : Route) (v1 v2 : List (String × String)) (k : Nat),
      R1 ∈ routes → R2 ∈ routes →
      R1.matchFn path = some v1 → R2.matchFn path = some v2 →
      R1.matchVarCount = k → R2.matchVarCount = k + 1 →
      ∃ (R : Route) (vars : List (String × String)),
        tryMatchRoute routes path = .ok (R, vars) ∧
        R.matchFn path = some vars ∧
        R.matchVarCount ≤ k ∧
        R.matchVarCount < R2.matchVarCount) ∧
    ((∀ R ∈ routes, R.matchFn path = none) →
      tryMatchRoute routes path = .error (.unixError unix.ENOENT)) := by
  constructor
  · intro R1 R2 v1 v2 k h1 h2 hm1 hm2 hk1 hk2
    have h1s : R1 ∈ sortRoutes routes := (mem_sortRoutes R1 routes).mpr h1
    rcases findFirstMatch_isSome (sortRoutes routes) path R1 v1 h1s hm1 with ⟨⟨R, vars⟩, hfind⟩
    refine ⟨R, vars, ?_, (findFirstMatch_spec _ _ _ _ hfind).2, ?_, ?_⟩
    · rw [tryMatchRoute, if_neg (by simp [hns]), hfind]
    · have := findFirstMatch_min (sortRoutes routes) path R vars
        (pairwise_sortRoutes routes) hfind R1 h1s v1 hm1
      omega
    · have := findFirstMatch_min (sortRoutes routes) path R vars
        (pairwise_sortRoutes routes) hfind R1 h1s v1 hm1
      omega
  · intro hnone
    rw [tryMatchRoute, if_neg (by simp [hns])]
    rw [findFirstMatch_none (sortRoutes routes) path
      fun y hy => hnone y ((mem_sortRoutes y routes).mp hy)]

/-- Example routes for C6: a fully literal pattern `/a/b` (0 variables),
`/a/{x}` (1 variable) and `/{y}/{x}` (2 variables); all three match the
path `/a/b`. -/
def r0ex : Route := routeOfPattern [.lit "", .lit "a", .lit "b"] fun _ => none

/-- The 1-variable example route `/a/{x}`. -/
def r1ex : Route := routeOfPattern [.lit "", .lit "a", .seg_var "x"] fun _ => none

/-- The 2-variable example route `/{y}/{x}`. -/
def r2ex : Route := routeOfPattern [.lit "", .seg_var "y", .seg_var "x"] fun _ => none

/-- Counterexample for C6 as stated: with R1 = `/a/{x}` (k = 1 variable)
and R2 = `/{y}/{x}` (k+1 = 2 variables) both matching `/a/b`, the claim
asserts resolution "always returns R1" — but when the registry also
holds the more specific `/a/b` (0 variables), resolution returns that
route (variable count 0, not 1), so the claim's universally quantified
statement fails. -/
theorem c6_counterexample :
    r1ex.matchVarCount = 1 ∧ r2ex.matchVarCount = 2 ∧
    r1ex.matchFn "/a/b" = some [("x", "b")] ∧
    r2ex.matchFn "/a/b" = some [("y", "a"), ("x", "b")] ∧
    tryMatchRoute [r0ex, r1ex, r2ex] "/a/b" = .ok (r0ex, []) ∧
    r0ex.matchVarCount = 0 := by
  exact ⟨rfl, rfl, rfl, rfl, rfl, rfl⟩

/-- Witness for C6: on the registry holding only R1 = `/a/{x}` and
R2 = `/{y}/{x}`, resolution of the non-sidecar path `/a/b` returns a
matching route of variable count ≤ 1, strictly below R2's. -/
theorem c6_witness :
    isAppleDoublePath "/a/b" = false ∧
    (∃ (R : Route) (vars : List (String × String)),
      tryMatchRoute [r1ex, r2ex] "/a/b" = .ok (R, vars) ∧
      R.matchFn "/a/b" = some vars ∧
      R.matchVarCount ≤ 1 ∧
      R.matchVarCount < r2ex.matchVarCount) := by
  refine ⟨by decide, ?_⟩
  exact (c6_resolution_order [r1ex, r2ex] "/a/b" (by decide)).1 r1ex r2ex
    [("x", "b")] [("y", "a"), ("x", "b")] 1
    (by simp) (by simp) rfl rfl rfl rfl

/-! Claim C4 (corrected): the base64 boundary is byte-preserving, the
write path is not. -/

/-- Decoding inverts encoding on each sextet. -/
theorem charSextet_sextetChar : ∀ s < 64, charSextet (sextetChar s) = s := by decide

/-- The base64 alphabet never produces the padding character `=` (61). -/
theorem sextetChar_ne_61 (s : Nat) : sextetChar s ≠ 61 := by
  unfold sextetChar
  repeat' split
  all_goals omega

/-- Base64 alphabet characters are ASCII. -/
theorem sextetChar_lt_128 (s : Nat) : sextetChar s < 128 := by
  unfold sextetChar
  repeat' split
  all_goals omega

/-- Every code point `btoa` emits is a valid binary-string byte. -/
theorem btoaCodes_lt_256 : ∀ (l : List Nat), ∀ x ∈ btoaCodes l, x < 256
  | [] => by simp [btoaCodes]
  | [a] => by
    intro x hx
    simp only [btoaCodes, List.mem_cons, List.not_mem_nil, or_false] at hx
    rcases hx with h | h | h | h <;> subst h
    · exact Nat.lt_of_lt_of_le (sextetChar_lt_128 _) (by omega)
    · exact Nat.lt_of_lt_of_le (sextetChar_lt_128 _) (by omega)
    · omega
    · omega
  | [a, b] => by
    intro x hx
    simp only [btoaCodes, List.mem_cons, List.not_mem_nil, or_false] at hx
    rcases hx with h | h | h | h <;> subst h
    · exact Nat.lt_of_lt_of_le (sextetChar_lt_128 _) (by omega)
    · exact Nat.lt_of_lt_of_le (sextetChar_lt_128 _) (by omega)
    · exact Nat.lt_of_lt_of_le (sextetChar_lt_128 _) (by omega)
    · omega
  | a :: b :: c :: rest => by
    intro x hx
    simp only [btoaCodes, List.mem_cons] at hx
    rcases hx with h | h | h | h | h
    · subst h
      exact Nat.lt_of_lt_of_le (sextetChar_lt_128 _) (by omega)
    · subst h
      exact Nat.lt_of_lt_of_le (sextetChar_lt_128 _) (by omega)
    · subst h
      exact Nat.lt_of_lt_of_le (sextetChar_lt_128 _) (by omega)
    · subst h
      exact Nat.lt_of_lt_of_le (sextetChar_lt_128 _) (by omega)
    · exact btoaCodes_lt_256 rest x h

/-- `atob` inverts `btoa` on every byte sequence (all 256 byte values). -/
theorem atob_btoa_codes : ∀ (l : List Nat), (∀ b ∈ l, b < 256) → atobCodes (btoaCodes l) = l
  | [], _ => rfl
  | [a], h => by
    have ha : a < 256 := h a (by simp)
    have e0 : charSextet (sextetChar (a / 4)) = a / 4 := charSextet_sextetChar _ (by omega)
    have e1 : charSextet (sextetChar (a % 4 * 16)) = a % 4 * 16 :=
      charSextet_sextetChar _ (by omega)
    simp only [btoaCodes, atobCodes]
    rw [if_pos trivial, e0, e1]
    have : a / 4 * 4 + a % 4 * 16 / 16 = a := by omega
    rw [this]
  | [a, b], h => by
    have ha : a < 256 := h a (by simp)
    have hb : b < 256 := h b (by simp)
    have e0 : charSextet (sextetChar (a / 4)) = a / 4 := charSextet_sextetChar _ (by omega)
    have e1 : charSextet (sextetChar (a % 4 * 16 + b / 16)) = a % 4 * 16 + b / 16 :=
      charSextet_sextetChar _ (by omega)
    have e2 : charSextet (sextetChar (b % 16 * 4)) = b % 16 * 4 :=
      charSextet_sextetChar _ (by omega)
    simp only [btoaCodes, atobCodes]
    rw [if_pos trivial, e0, e1, e2, if_neg (sextetChar_ne_61 _)]
    simp only [List.cons.injEq, and_true]
    exact ⟨by omega, by omega⟩
  | a :: b :: c :: rest, h => by
    have ha : a < 256 := h a (by simp)
    have hb : b < 256 := h b (by simp)
    have hc : c < 256 := h c (by simp)
    have ih := atob_btoa_codes rest fun x hx => h x (by simp [hx])
    have e0 : charSextet (sextetChar (a / 4)) = a / 4 := charSextet_sextetChar _ (by omega)
    have e1 : charSextet (sextetChar (a % 4 * 16 + b / 16)) = a % 4 * 16 + b / 16 :=
      charSextet_sextetChar _ (by omega)
    have e2 : charSextet (sextetChar (b % 16 * 4 + c / 64)) = b % 16 * 4 + c / 64 :=
      charSextet_sextetChar _ (by omega)
    have e3 : charSextet (sextetChar (c % 64)) = c % 64 := charSextet_sextetChar _ (by omega)
    simp only [btoaCodes, atobCodes]
    rw [if_neg (sextetChar_ne_61 _), if_neg (sextetChar_ne_61 _), e0, e1, e2, e3, ih]
    simp only [List.cons.injEq]
    exact ⟨by omega, by omega, by omega, trivial⟩

/-- `Char.ofNat` then `Char.toNat` is the identity on byte values. -/
theorem toNat_ofNat_of_lt : ∀ n < 256, (Char.ofNat n).toNat = n := by decide

/-- Reading back the code points of a binary string built from byte
values returns exactly those bytes. -/
theorem charCodes_fromCharCodes (B : List Nat) (hB : ∀ b ∈ B, b < 256) :
    charCodes (fromCharCodes B) = B := by
  induction B with
  | nil => rfl
  | cons b bs ih =>
    show ((b :: bs).map Char.ofNat).map Char.toNat = b :: bs
    simp only [List.map_cons]
    rw [toNat_ofNat_of_lt b (hB b (by simp))]
    exact congrArg (List.cons b) (ih fun x hx => hB x (by simp [hx]))

/-- C4 (amended): at the dispatcher boundary the text-safe encoding is
byte-preserving for all 256 byte values — `atob` inverts `btoa` on code
lists and on binary strings, so a request whose `buf` is the encoding
of byte sequence B reaches the handler as exactly the binary string of
B, and a read response whose `buf` holds bytes B leaves as exactly the
encoding of B. (The write path, however, re-encodes its binary string as UTF-8
before storing it, so bytes ≥ 0x80 are not preserved through the
handler's buffer mutation — see the counterexample.) -/
theorem c4_boundary_roundtrip (B : List Nat) (hB : ∀ b ∈ B, b < 256) :
    atobCodes (btoaCodes B) = B ∧
    atobStr (btoaStr (fromCharCodes B)) = fromCharCodes B ∧
    (∀ req : Req, req.buf = btoaStr (fromCharCodes B) → req.buf ≠ "" →
      (ingressReq req).buf = fromCharCodes B) ∧
    (B ≠ [] →
      egressData (.readBuf (fromCharCodes B)) = .readBuf (btoaStr (fromCharCodes B))) := by
  have h1 : atobCodes (btoaCodes B) = B := atob_btoa_codes B hB
  have h2 : atobStr (btoaStr (fromCharCodes B)) = fromCharCodes B := by
    unfold atobStr btoaStr
    rw [charCodes_fromCharCodes B hB]
    rw [charCodes_fromCharCodes (btoaCodes B) (btoaCodes_lt_256 B)]
    rw [h1]
  refine ⟨h1, h2, ?_, ?_⟩
  · intro req hbuf hne
    rw [ingressReq, if_neg hne]
    show atobStr req.buf = fromCharCodes B
    rw [hbuf]
    exact h2
  · intro hBne
    have hne : fromCharCodes B ≠ "" := by
      intro hcon
      exact hBne (by simpa [fromCharCodes] using congrArg String.data hcon)
    simp [egressData, hne]

/-- Witness for C4 (amended) at a concrete byte sequence covering low
and high byte values: the boundary round-trip is exact. -/
theorem c4_witness :
    (∀ b ∈ [0, 127, 128, 255], b < 256) ∧
    atobCodes (btoaCodes [0, 127, 128, 255]) = [0, 127, 128, 255] ∧
    atobStr (btoaStr (fromCharCodes [0, 127, 128, 255])) = fromCharCodes [0, 127, 128, 255] := by
  refine ⟨by decide, ?_, ?_⟩
  · exact (c4_boundary_roundtrip [0, 127, 128, 255] (by decide)).1
  · exact (c4_boundary_roundtrip [0, 127, 128, 255] (by decide)).2.1

/-- The content route on `/f` used by the C4 counterexample: reads give
`""`, writes are accepted. -/
def c4route : Route :=
  contentRoute [.lit "", .lit "f"] (fun _ => .ok (.str "")) (some fun _ _ => .ok ())

/-- The C4 counterexample's write request: its wire `buf` is the
text-safe (base64) encoding of the byte sequence `[255]`. -/
def c4wreq : Req :=
  { id := 2, op := "write", path := "/f", fh := 1, offset := 0,
    buf := btoaStr (fromCharCodes [255]) }

/-- Counterexample for C4 as stated: write the single byte 0xFF (wire
`buf` = `"/w=="`, its text-safe encoding) into a fresh handle opened on
`""`. The handler receives the binary string of `[255]` intact, but the
write path's buffer handling stores `stringToUtf8Array` of it — the two
bytes `[195, 191]` (the UTF-8 encoding of U+00FF) — not `[255]`; the
subsequent read therefore returns the encoding of `[195, 191]`, not of
`[255]`. Byte values ≥ 0x80 are not preserved through the write path,
refuting "byte-preserving for all 256 byte values, including through
the write path's buffer handling". -/
theorem c4_counterexample :
    btoaStr (fromCharCodes [255]) = "/w==" ∧
    (ingressReq c4wreq).buf = fromCharCodes [255] ∧
    stringToUtf8Array (fromCharCodes [255]) = [195, 191] ∧
    (onMessageResult [c4route] { id := 1, op := "open", path := "/f" }
        { store := [], nextHandle := 0 }).2 =
      { store := [(1, { path := "/f", object := [] })], nextHandle := 1 } ∧
    (onMessageResult [c4route] c4wreq
        { store := [(1, { path := "/f", object := [] })], nextHandle := 1 }).2.getObjectForHandle 1 =
      some [195, 191] ∧
    some [195, 191] ≠ some [255] ∧
    (onMessageResult [c4route] { id := 3, op := "read", path := "/f", fh := 1, offset := 0, size := 10 }
        { store := [(1, { path := "/f", object := [195, 191] })], nextHandle := 1 }).1.data =
      some (.readBuf (btoaStr (fromCharCodes [195, 191]))) ∧
    btoaStr (fromCharCodes [195, 191]) ≠ btoaStr (fromCharCodes [255]) := by
  exact ⟨by decide, by decide, by decide, by decide, by decide, by decide, by decide, by decide⟩

end TabFS
